import Mathlib

/-!
Verification development for the pilot_water irrigation-network engine.

The Python sources under `src/` are shallowly embedded: Python `dict`s
(insertion-ordered, unique keys) are modelled as association lists with
replace-in-place insertion, Python `set`s of strings as duplicate-free
lists, and objects mutated in place are threaded functionally.  Recursive
graph walks whose termination rests on the finiteness of the node set are
given an explicit fuel argument; callers pass a fuel that dominates the
recursion depth, mirroring the terminating executions of the Python code.
-/

/-- Association-list model of a Python `dict` keyed by strings: lookup of
a key returns the value of its first (and, for lists built by `ainsert`,
only) binding. -/
def alookup {β : Type} (k : String) : List (String × β) → Option β
  | [] => none
  | (k', v) :: t => if k' = k then some v else alookup k t

/-- Model of `d[k] = v` on a Python `dict`: replaces the binding in place
if the key is present, otherwise appends it (insertion order). -/
def ainsert {β : Type} (k : String) (v : β) : List (String × β) → List (String × β)
  | [] => [(k, v)]
  | (k', v') :: t => if k' = k then (k, v) :: t else (k', v') :: ainsert k v t

/-- Model of `d.pop(k, None)` / `del d[k]` on a Python `dict`: removes
every binding of the key (at most one exists in dict-built lists). -/
def aerase {β : Type} (k : String) : List (String × β) → List (String × β)
  | [] => []
  | (k', v') :: t => if k' = k then aerase k t else (k', v') :: aerase k t

/-- Model of an in-place mutation `f` of the object stored at key `k` in a
Python `dict` (a no-op when the key is absent, where Python would raise
`KeyError`; the operations below only mutate keys they have just looked
up). -/
def amodify {β : Type} (k : String) (f : β → β) : List (String × β) → List (String × β)
  | [] => []
  | (k', v') :: t => if k' = k then (k', f v') :: t else (k', v') :: amodify k f t

/-- Model of Python `s.add(x)` on a `set` represented as a duplicate-free
list: appends the element when it is not already present. -/
def setAdd (x : String) (s : List String) : List String :=
  if x ∈ s then s else s ++ [x]

/-- Model of the Python `s.startswith(p)` string test. -/
def pyStartsWith (s p : String) : Bool :=
  p.data.isPrefixOf s.data

namespace Core

/-- Embedding of `src/models/components.py` `NetworkComponent.__init__`:
id, label, ordered outgoing and incoming adjacency lists, and the
hierarchy level initialised to `-1`.  The free-form `attributes` dict is
presentation metadata and is not modelled. -/
structure NetworkComponent where
  id : String
  label : String
  connections_to : List String := []
  connections_from : List String := []
  level : Int := -1
deriving Repr, DecidableEq

/-- Embedding of `src/models/components.py` `NetworkComponent.component_type`:
derives the type from the id via a `startswith` chain, with fallback
`"unknown"`. -/
def NetworkComponent.component_type (c : NetworkComponent) : String :=
  if pyStartsWith c.id "MC" then "canal"
  else if pyStartsWith c.id "DP" then "distribution_point"
  else if pyStartsWith c.id "SW" then "smart_water"
  else if pyStartsWith c.id "ZT" then "gate"
  else if pyStartsWith c.id "F" then "field"
  else "unknown"

/-- Embedding of `NetworkComponent.add_connection_to`: appends the target
to the outgoing list unless already present. -/
def NetworkComponent.add_connection_to (c : NetworkComponent) (target_id : String) :
    NetworkComponent :=
  if target_id ∈ c.connections_to then c
  else { c with connections_to := c.connections_to ++ [target_id] }

/-- Embedding of `NetworkComponent.add_connection_from`: appends the
source to the incoming list unless already present. -/
def NetworkComponent.add_connection_from (c : NetworkComponent) (source_id : String) :
    NetworkComponent :=
  if source_id ∈ c.connections_from then c
  else { c with connections_from := c.connections_from ++ [source_id] }

/-- Embedding of `NetworkComponent.set_level`. -/
def NetworkComponent.set_level (c : NetworkComponent) (level : Int) : NetworkComponent :=
  { c with level := level }

/-- Embedding of `src/core/network.py` `IrrigationNetwork`: the components
dict.  The embedded Strahler analyser state is threaded explicitly by the
functions below instead of being stored on the object. -/
structure IrrigationNetwork where
  components : List (String × NetworkComponent) := []
deriving Repr, DecidableEq

/-- Embedding of `IrrigationNetwork.add_component`
(`src/core/network.py` lines 11-16 and, identically,
`src/pilot_irrigation/core/network.py` lines 12-15): unconditionally
builds a fresh component and stores it under the id. -/
def IrrigationNetwork.add_component (net : IrrigationNetwork) (id label : String) :
    IrrigationNetwork :=
  { net with components := ainsert id { id := id, label := label } net.components }

/-- Embedding of `IrrigationNetwork.add_connection`
(`src/core/network.py` lines 18-24): when both ids exist, mutates the
source's outgoing list and the target's incoming list. -/
def IrrigationNetwork.add_connection (net : IrrigationNetwork)
    (source_id target_id : String) : IrrigationNetwork :=
  if (alookup source_id net.components).isSome && (alookup target_id net.components).isSome then
    let comps1 := amodify source_id (fun c => c.add_connection_to target_id) net.components
    let comps2 := amodify target_id (fun c => c.add_connection_from source_id) comps1
    { net with components := comps2 }
  else net

end Core

namespace Core

/-- Embedding of `StrahlerAnalyzer._compute_strahler_from_children`
(`src/core/strahler.py` lines 93-115, duplicated verbatim in
`src/pilot_irrigation/core/strahler.py`): sorts the child orders
descending (Python `sorted(child_numbers, reverse=True)`, modelled by
insertion sort with `≥`), takes the head as the maximum, and increments
exactly when the second entry also attains the maximum. -/
def computeStrahlerFromChildren (child_numbers : List Nat) : Nat :=
  if child_numbers = [] then 1
  else
    let sorted_numbers := child_numbers.insertionSort (· ≥ ·)
    let max_number := sorted_numbers.headD 0
    if 1 < sorted_numbers.length ∧ sorted_numbers[1]? = some max_number then
      max_number + 1
    else
      max_number

/-- Embedding of the inline child-combination step of
`NetworkAnalyzer._calculate_strahler_numbers`
(`src/core/network_analyzer.py` lines 165-175): `max(child_numbers)`
is modelled by `foldr Nat.max 0`, which agrees with Python `max` on the
non-empty lists the call site guarantees; the order is incremented when
the maximum occurs more than once. -/
def strahlerFromChildrenByCount (child_numbers : List Nat) : Nat :=
  let max_child := child_numbers.foldr Nat.max 0
  if 1 < child_numbers.count max_child then max_child + 1 else max_child

/-- Sequential traversal of a child list threading the memo table,
abstracting the `for child_id in component.connections_to` loop of
`StrahlerAnalyzer._calculate_strahler` over the recursive call `f`. -/
def calcChildrenAux (f : String → List (String × Nat) → Nat × List (String × Nat)) :
    List String → List (String × Nat) → List Nat × List (String × Nat)
  | [], memo => ([], memo)
  | c :: cs, memo =>
    let r1 := f c memo
    let r2 := calcChildrenAux f cs r1.2
    (r1.1 :: r2.1, r2.2)

/-- Embedding of `StrahlerAnalyzer._calculate_strahler`
(`src/core/strahler.py` lines 50-91): memoised DFS over the children,
with the active recursion path `visited` threaded explicitly (the Python
`visited.add`/`visited.remove` pair around the child loop is exactly a
cons onto the path passed to the children).  The extra fuel argument
bounds the recursion depth; the depth of a run is bounded by the number
of components, so callers pass `components.length + 1`.  A child id
absent from the components dict (where Python would raise `KeyError`;
never the case for networks built through `add_connection`) yields 0
without memoising. -/
def calculateStrahler : Nat → List (String × NetworkComponent) → String →
    List String → List (String × Nat) → Nat × List (String × Nat)
  | 0, _, _, _, memo => (0, memo)
  | fuel + 1, components, node_id, visited, memo =>
    match alookup node_id memo with
    | some v => (v, memo)
    | none =>
      if node_id ∈ visited then (0, memo)
      else
        match alookup node_id components with
        | none => (0, memo)
        | some component =>
          if component.connections_to = [] then (1, ainsert node_id 1 memo)
          else
            let r := calcChildrenAux
                (fun c m => calculateStrahler fuel components c (node_id :: visited) m)
                component.connections_to memo
            let strahler := computeStrahlerFromChildren r.1
            (strahler, ainsert node_id strahler r.2)

/-- Embedding of the source-node side of
`StrahlerAnalyzer._identify_sources_and_sinks` (`src/core/strahler.py`
lines 36-48): ids of components with an empty incoming list, in dict
iteration order. -/
def identifySourceNodes (components : List (String × NetworkComponent)) : List String :=
  (components.filter (fun e => e.2.connections_from = [])).map Prod.fst

/-- Embedding of `StrahlerAnalyzer.analyze_network` (`src/core/strahler.py`
lines 17-34): clears the memo, then triggers the DFS from each source
node only. -/
def analyzeNetwork (components : List (String × NetworkComponent)) : List (String × Nat) :=
  (identifySourceNodes components).foldl
    (fun memo source_id =>
      (calculateStrahler (components.length + 1) components source_id [] memo).2)
    []

/-- Embedding of `StrahlerAnalyzer.get_max_level` (`src/core/strahler.py`
lines 136-143): `max(values)` when the memo is non-empty (modelled by
`foldr Nat.max 0`, which agrees with Python `max` on non-empty lists of
naturals), else 0. -/
def getMaxLevel (strahler_numbers : List (String × Nat)) : Nat :=
  if strahler_numbers = [] then 0
  else (strahler_numbers.map Prod.snd).foldr Nat.max 0

end Core

namespace Pilot

/-- Embedding of `ComponentType` (`src/pilot_irrigation/core/components.py`
lines 6-11).  Note the enum has no `unknown` member. -/
inductive ComponentType where
  | DISTRIBUTION_POINT
  | CANAL
  | GATE
  | SMART_WATER
  | FIELD
deriving Repr, DecidableEq

/-- Embedding of the prefix extraction in `NetworkComponent.__post_init__`
(`src/pilot_irrigation/core/components.py` line 28): the id's alphabetic
characters, in order. -/
def alphaChars (id : String) : String :=
  ⟨id.data.filter Char.isAlpha⟩

/-- Embedding of the type derivation in `NetworkComponent.__post_init__`
(`src/pilot_irrigation/core/components.py` lines 27-36):
`type_map.get(prefix, ComponentType.CANAL)` — an unrecognised prefix
silently defaults to `CANAL`. -/
def componentTypeOfId (id : String) : ComponentType :=
  let pfx := alphaChars id
  if pfx = "DP" then ComponentType.DISTRIBUTION_POINT
  else if pfx = "MC" then ComponentType.CANAL
  else if pfx = "ZT" then ComponentType.GATE
  else if pfx = "SW" then ComponentType.SMART_WATER
  else if pfx = "F" then ComponentType.FIELD
  else ComponentType.CANAL

end Pilot

/-- Concrete network: the chain A→B→C built through the graph-model
operations. -/
def chainNet : Core.IrrigationNetwork :=
  ((((Core.IrrigationNetwork.add_component {} "A" "a").add_component "B" "b").add_component
      "C" "c").add_connection "A" "B").add_connection "B" "C"

/-- Concrete network: the pure 3-node cycle A→B→C→A built through the
graph-model operations. -/
def cycleNet : Core.IrrigationNetwork :=
  (((((Core.IrrigationNetwork.add_component {} "A" "a").add_component "B" "b").add_component
      "C" "c").add_connection "A" "B").add_connection "B" "C").add_connection "C" "A"

/-- Concrete network: root R feeding two leaves X, Y. -/
def branchNet : Core.IrrigationNetwork :=
  ((((Core.IrrigationNetwork.add_component {} "R" "r").add_component "X" "x").add_component
      "Y" "y").add_connection "R" "X").add_connection "R" "Y"

/-- Concrete network: a canal connected to a gate, before the canal's id
is re-added. -/
def dupNet2 : Core.IrrigationNetwork :=
  (((Core.IrrigationNetwork.add_component {} "MC1" "Main canal").add_component
      "ZT1" "Gate").add_connection "MC1" "ZT1")

/-- Concrete network: `dupNet2` after `add_component` is called again with
the already-used id `MC1`. -/
def dupNet3 : Core.IrrigationNetwork :=
  dupNet2.add_component "MC1" "Second canal"

/-- Concrete network: a single distribution point, used to exercise a
self-loop `add_connection`. -/
def selfNet : Core.IrrigationNetwork :=
  Core.IrrigationNetwork.add_component {} "DP1" "dp"

/-- Concrete network: a single isolated component (no edges at all). -/
def isoNet : Core.IrrigationNetwork :=
  Core.IrrigationNetwork.add_component {} "X" "x"

/-- Auxiliary predicate: `k` appears in the outgoing adjacency list of
some component of the dict, i.e. some recorded edge points at `k`. -/
def isTargetIn (comps : List (String × Core.NetworkComponent)) (k : String) : Prop :=
  ∃ e ∈ comps, k ∈ e.2.connections_to

namespace Core

/-- Inner DFS of `IrrigationNetwork.get_all_paths`
(`src/core/network.py` lines 59-85): enumerates simple paths from
`current`; a path is recorded at a leaf when no end id is given, or when
the end id is reached.  The shared `visited` set of the Python code is
add/remove balanced, so each child call sees exactly the current path
set, modelled by passing `visited ++ [current]` down.  Fuel bounds the
recursion depth (the Python depth is bounded by the node count).  A
missing id (where Python would raise `KeyError`, impossible for networks
built through `add_connection`) contributes no paths. -/
def dfsPaths : Nat → List (String × NetworkComponent) → Option String → String →
    List String → List String → List (List String)
  | 0, _, _, _, _, _ => []
  | fuel + 1, comps, end_id, current, visited, path =>
    if current ∈ visited then []
    else
      let path' := path ++ [current]
      match alookup current comps with
      | none => []
      | some comp =>
        if end_id = none ∧ comp.connections_to = [] then [path']
        else if some current = end_id then [path']
        else
          comp.connections_to.foldl
            (fun acc nxt => acc ++ dfsPaths fuel comps end_id nxt (visited ++ [current]) path')
            []

/-- Embedding of `IrrigationNetwork.get_all_paths`: runs the DFS from the
start node when it exists. -/
def getAllPaths (comps : List (String × NetworkComponent)) (start_id : String)
    (end_id : Option String) : List (List String) :=
  if (alookup start_id comps).isSome then
    dfsPaths (comps.length + 1) comps end_id start_id [] []
  else []

/-- State threaded through the cycle check of
`NetworkValidator._check_for_cycles`: the global `visited` set, the
recursion-path set, and the accumulated error list. -/
structure CycleState where
  visited : List String
  path : List String
  errors : List String

/-- Early-exit loop over the children inside `detect_cycle`, abstracted
over the recursive call `f`: stops at the first child reporting a
cycle. -/
def cycleChildLoop (f : String → CycleState → Bool × CycleState) :
    List String → CycleState → Bool × CycleState
  | [], st => (false, st)
  | c :: cs, st =>
    let r := f c st
    if r.1 then (true, r.2) else cycleChildLoop f cs r.2

/-- Embedding of `detect_cycle` inside `NetworkValidator._check_for_cycles`
(`src/core/validator.py` lines 186-203): DFS with a recursion-path set;
appends a cycle error and returns `True` when the current node is already
on the path.  Mirrors the Python early-`return True`, which skips the
`path.remove` cleanup, leaving the path set polluted.  A node id missing
from the components dict (Python `KeyError`; unreachable for networks
built through `add_connection`) is treated as having no children. -/
def detectCycle : Nat → List (String × NetworkComponent) → String → CycleState →
    Bool × CycleState
  | 0, _, _, st => (false, st)
  | fuel + 1, comps, node_id, st =>
    if node_id ∈ st.path then
      (true, { st with errors :=
          st.errors ++ ["Cycle detected involving component " ++ node_id] })
    else if node_id ∈ st.visited then (false, st)
    else
      let st1 : CycleState :=
        { st with visited := st.visited ++ [node_id], path := st.path ++ [node_id] }
      match alookup node_id comps with
      | none => (false, { st1 with path := st1.path.erase node_id })
      | some comp =>
        let r := cycleChildLoop (fun c s => detectCycle fuel comps c s)
            comp.connections_to st1
        if r.1 then (true, r.2)
        else (false, { r.2 with path := r.2.path.erase node_id })

/-- Embedding of `NetworkValidator._check_for_cycles`
(`src/core/validator.py` lines 181-210): starts the DFS only from source
nodes, sharing the visited/path state across the starts, and appends any
cycle errors to the given error list. -/
def checkForCycles (comps : List (String × NetworkComponent)) (errors : List String) :
    List String :=
  let sources := (comps.filter (fun e => e.2.connections_from = [])).map Prod.fst
  (sources.foldl (fun st s => (detectCycle (comps.length + 1) comps s st).2)
    { visited := [], path := [], errors := errors }).errors

/-- Embedding of `NetworkValidator._validate_topology`
(`src/core/validator.py` lines 37-56): disconnected components, presence
of at least one source and one sink, then the cycle check. -/
def validateTopology (comps : List (String × NetworkComponent)) : List String :=
  let errs1 := comps.foldl
    (fun errs e =>
      if e.2.connections_from = [] ∧ e.2.connections_to = [] then
        errs ++ ["Component " ++ e.1 ++ " is disconnected"]
      else errs)
    []
  let sources := (comps.filter (fun e => e.2.connections_from = [])).map Prod.fst
  let sinks := (comps.filter (fun e => e.2.connections_to = [])).map Prod.fst
  let errs2 := if sources = [] then errs1 ++ ["Network has no source nodes"] else errs1
  let errs3 := if sinks = [] then errs2 ++ ["Network has no sink nodes"] else errs2
  checkForCycles comps errs3

/-- Embedding of `NetworkValidator._validate_strahler_ordering`
(`src/core/validator.py` lines 58-78): recomputes the Strahler numbers,
compares each component's stored level against them
(`strahler_numbers.get(comp_id, -1)`), then flags edges whose target
level is not strictly above the source level. -/
def validateStrahlerOrdering (comps : List (String × NetworkComponent)) : List String :=
  let strahler_numbers := analyzeNetwork comps
  let errs1 := comps.foldl
    (fun (errs : List String) (e : String × NetworkComponent) =>
      let strahler : Int :=
        match alookup e.1 strahler_numbers with
        | some v => (v : Int)
        | none => -1
      if e.2.level ≠ strahler then
        errs ++ ["Component " ++ e.1 ++ " level (" ++ toString e.2.level ++
          ") does not match its Strahler number (" ++ toString strahler ++ ")"]
      else errs)
    ([] : List String)
  comps.foldl
    (fun errs e =>
      e.2.connections_to.foldl
        (fun errs2 child_id =>
          match alookup child_id comps with
          | none => errs2
          | some child =>
            if child.level ≤ e.2.level ∧ child_id ≠ e.1 then
              errs2 ++ ["Invalid hierarchy: " ++ e.1 ++ " (level " ++ toString e.2.level ++
                ") connects to " ++ child_id ++ " (level " ++ toString child.level ++ ")"]
            else errs2)
        errs)
    errs1

/-- Embedding of the `valid_connections` table of
`NetworkValidator._validate_component_connections`
(`src/core/validator.py` lines 82-89). -/
def validConnections (comp_type : String) : Option (List String) :=
  if comp_type = "canal" then some ["distribution_point", "smart_water", "gate"]
  else if comp_type = "distribution_point" then some ["canal", "smart_water", "gate", "field"]
  else if comp_type = "smart_water" then some ["field"]
  else if comp_type = "gate" then some ["field"]
  else if comp_type = "field" then some []
  else none

/-- Embedding of `NetworkValidator._validate_component_specific_rules`
(`src/core/validator.py` lines 107-128): cardinality rules for smart
water meters, gates and fields. -/
def validateComponentSpecificRules (comp_id : String) (comp : NetworkComponent) :
    List String :=
  if comp.component_type = "smart_water" then
    (if comp.connections_from.length ≠ 1 then
      ["Smart water meter " ++ comp_id ++ " should have exactly one input"] else [])
    ++ (if comp.connections_to.length ≠ 1 then
      ["Smart water meter " ++ comp_id ++ " should have exactly one output"] else [])
  else if comp.component_type = "gate" then
    if comp.connections_from.length ≠ 1 then
      ["Gate " ++ comp_id ++ " should have exactly one input"] else []
  else if comp.component_type = "field" then
    (if comp.connections_from.length ≠ 1 then
      ["Field " ++ comp_id ++ " should have exactly one input"] else [])
    ++ (if comp.connections_to ≠ [] then
      ["Field " ++ comp_id ++ " should not have any outputs"] else [])
  else []

/-- Embedding of `NetworkValidator._validate_component_connections`
(`src/core/validator.py` lines 80-105): per component, checks each
outgoing edge against the allowed-target table, then the
component-specific cardinality rules. -/
def validateComponentConnections (comps : List (String × NetworkComponent)) : List String :=
  comps.foldl
    (fun errs e =>
      let conn_errs :=
        match validConnections e.2.component_type with
        | none => []
        | some allowed =>
          e.2.connections_to.foldl
            (fun errs2 target_id =>
              match alookup target_id comps with
              | none => errs2
              | some target =>
                if target.component_type ∈ allowed then errs2
                else errs2 ++ ["Invalid connection: " ++ e.1 ++ " (" ++
                  e.2.component_type ++ ") to " ++ target_id ++ " (" ++
                  target.component_type ++ ")"])
            []
      errs ++ conn_errs ++ validateComponentSpecificRules e.1 e.2)
    []

/-- Embedding of the `valid_prefixes` table of
`NetworkValidator._validate_component_types`
(`src/core/validator.py` lines 132-138). -/
def validPrefixes (pfx : String) : Option String :=
  if pfx = "MC" then some "canal"
  else if pfx = "DP" then some "distribution_point"
  else if pfx = "SW" then some "smart_water"
  else if pfx = "ZT" then some "gate"
  else if pfx = "F" then some "field"
  else none

/-- Embedding of `NetworkValidator._validate_component_types`
(`src/core/validator.py` lines 130-147): the id's alphabetic characters
are looked up in the canonical prefix table and compared against the
derived type. -/
def validateComponentTypes (comps : List (String × NetworkComponent)) : List String :=
  comps.foldl
    (fun errs e =>
      let pfx : String := ⟨e.1.data.filter Char.isAlpha⟩
      match validPrefixes pfx with
      | none => errs
      | some expected =>
        if e.2.component_type ≠ expected then
          errs ++ ["Component " ++ e.1 ++ " has incorrect type " ++
            e.2.component_type ++ ", expected " ++ expected]
        else errs)
    []

/-- Embedding of `NetworkValidator._is_valid_field_path`
(`src/core/validator.py` lines 212-227): the path must be non-empty, end
in a field id, and contain a control component. -/
def isValidFieldPath (comps : List (String × NetworkComponent)) (path : List String) :
    Bool :=
  match path.getLast? with
  | none => false
  | some last_id =>
    pyStartsWith last_id "F" &&
      path.any (fun node_id =>
        match alookup node_id comps with
        | some c => c.component_type = "smart_water" || c.component_type = "gate"
        | none => false)

/-- Embedding of `NetworkValidator._validate_field_paths`
(`src/core/validator.py` lines 149-167): every field must be reached by a
valid path from some source. -/
def validateFieldPaths (comps : List (String × NetworkComponent)) : List String :=
  let fields := (comps.filter (fun e => pyStartsWith e.1 "F")).map Prod.fst
  let sources := (comps.filter (fun e => e.2.connections_from = [])).map Prod.fst
  fields.foldl
    (fun errs field_id =>
      let found := sources.any
        (fun source_id =>
          (getAllPaths comps source_id (some field_id)).any (isValidFieldPath comps))
      if found then errs
      else errs ++ ["No valid irrigation path to field " ++ field_id])
    []

/-- Embedding of `NetworkValidator._validate_irrigation_rules` together
with `_has_control_point_in_path` (`src/core/validator.py` lines 169-179
and 229-240): fields without a control point on any source path are
flagged as warnings. -/
def validateIrrigationRules (comps : List (String × NetworkComponent)) : List String :=
  let fields := (comps.filter (fun e => pyStartsWith e.1 "F")).map Prod.fst
  let sources := (comps.filter (fun e => e.2.connections_from = [])).map Prod.fst
  fields.foldl
    (fun warns field_id =>
      let found := sources.any
        (fun source_id =>
          (getAllPaths comps source_id (some field_id)).any (isValidFieldPath comps))
      if found then warns
      else warns ++ ["Field " ++ field_id ++ " has no control point (smart water or gate) " ++
        "in its irrigation path"])
    []

/-- Embedding of `NetworkValidator.validate` (`src/core/validator.py`
lines 14-35): runs every check in order, collecting blocking errors and
advisory warnings, and reports validity as emptiness of the errors. -/
def validate (net : IrrigationNetwork) : Bool × List String × List String :=
  let comps := net.components
  let errors := validateTopology comps ++ validateStrahlerOrdering comps ++
    validateComponentConnections comps ++ validateComponentTypes comps ++
    validateFieldPaths comps
  let warnings := validateIrrigationRules comps
  (errors = [], errors, warnings)

end Core

namespace Pilot

/-- Embedding of `JointType` (`src/pilot_irrigation/core/blocks/types.py`). -/
inductive JointType where
  | INTERNAL
  | CONFLUENCE
deriving Repr, DecidableEq

/-- Embedding of `BlockType` (`src/pilot_irrigation/core/blocks/types.py`). -/
inductive BlockType where
  | MAIN
  | DISTRIBUTION
  | TERMINAL
deriving Repr, DecidableEq

/-- Embedding of `Joint` (`src/pilot_irrigation/core/blocks/blocks.py`
lines 9-21). -/
structure Joint where
  id : String
  joint_type : JointType
  upstream_components : List String
  downstream_components : List String
  level : Int := -1
deriving Repr, DecidableEq

/-- Embedding of `Block` (`src/pilot_irrigation/core/blocks/blocks.py`
lines 23-83): owned component set (a Python `set`, modelled as a
duplicate-free list), joints, level, optional manual order, parent and
child references, and the anchoring distribution canal.  The free-form
`attributes` mirror dict is not modelled. -/
structure Block where
  id : String
  block_type : BlockType
  components : List String := []
  joints : List (String × Joint) := []
  level : Int := -1
  manual_order : Option Int := none
  parent_id : Option String := none
  child_ids : List String := []
  distribution_canal : Option String := none
deriving Repr, DecidableEq

/-- Embedding of `Block.set_distribution_canal`: records the canal when it
is an owned `MC`-prefixed component. -/
def Block.set_distribution_canal (b : Block) (canal_id : String) : Block :=
  if canal_id ∈ b.components ∧ pyStartsWith canal_id "MC" then
    { b with distribution_canal := some canal_id }
  else b

/-- Embedding of `Block.add_component`: adds to the component set and
anchors the distribution canal on the first `MC` component. -/
def Block.add_component (b : Block) (component_id : String) : Block :=
  let b' := { b with components := setAdd component_id b.components }
  if pyStartsWith component_id "MC" ∧ b'.distribution_canal = none then
    b'.set_distribution_canal component_id
  else b'

/-- Embedding of `Block.remove_component`: removes the component from the
set (Python `set.remove`, modelled as removal of every occurrence) and
clears the distribution canal when it was that component. -/
def Block.remove_component (b : Block) (component_id : String) : Block :=
  if component_id ∈ b.components then
    let b' := { b with components := b.components.filter (fun y => y ≠ component_id) }
    if some component_id = b'.distribution_canal then
      { b' with distribution_canal := none }
    else b'
  else b

/-- Embedding of `Block.set_manual_order` (the `attributes` mirror entry
is not modelled). -/
def Block.set_manual_order (b : Block) (order : Int) : Block :=
  { b with manual_order := some order }

/-- Embedding of `BlockManager` (`src/pilot_irrigation/core/blocks/blocks.py`
lines 85-92): the block dict, the component-to-block ownership map, and
the monotone id counters. -/
structure BlockManager where
  blocks : List (String × Block) := []
  component_to_block : List (String × String) := []
  next_block_id : Nat := 1
  next_joint_id : Nat := 1
deriving Repr, DecidableEq

/-- Embedding of `BlockManager.create_block` (lines 94-105): mints the id
`B{next}`, creates the block (applying the optional manual order), and
registers it. -/
def BlockManager.create_block (m : BlockManager) (block_type : BlockType)
    (manual_order : Option Int) : String × BlockManager :=
  let block_id := "B" ++ toString m.next_block_id
  let block : Block := { id := block_id, block_type := block_type }
  let block :=
    match manual_order with
    | some o => block.set_manual_order o
    | none => block
  (block_id,
   { m with blocks := ainsert block_id block m.blocks,
            next_block_id := m.next_block_id + 1 })

/-- Embedding of `BlockManager.delete_block` (lines 107-130): detaches
from the parent's child set, orphans the children, releases the owned
components from the ownership map, and removes the block. -/
def BlockManager.delete_block (m : BlockManager) (block_id : String) :
    Bool × BlockManager :=
  match alookup block_id m.blocks with
  | none => (false, m)
  | some block =>
    let blocks1 :=
      match block.parent_id with
      | some p =>
        if (alookup p m.blocks).isSome then
          amodify p (fun pb => { pb with child_ids := pb.child_ids.erase block_id }) m.blocks
        else m.blocks
      | none => m.blocks
    let blocks2 := block.child_ids.foldl
      (fun bs child_id =>
        if (alookup child_id bs).isSome then
          amodify child_id (fun cb => { cb with parent_id := none }) bs
        else bs)
      blocks1
    let c2b := block.components.foldl (fun cb comp_id => aerase comp_id cb)
      m.component_to_block
    (true, { m with blocks := aerase block_id blocks2, component_to_block := c2b })

/-- Embedding of `BlockManager.assign_component` (lines 132-145): fails
when the target block is unknown; otherwise removes the component from
its previous owning block (found through the ownership map) and adds it
to the target, updating the map. -/
def BlockManager.assign_component (m : BlockManager) (component_id block_id : String) :
    Bool × BlockManager :=
  if (alookup block_id m.blocks).isSome then
    let blocks1 :=
      match alookup component_id m.component_to_block with
      | some old_block_id =>
        amodify old_block_id (fun ob => ob.remove_component component_id) m.blocks
      | none => m.blocks
    let blocks2 := amodify block_id (fun b => b.add_component component_id) blocks1
    (true, { m with blocks := blocks2,
                    component_to_block := ainsert component_id block_id m.component_to_block })
  else (false, m)

/-- Embedding of `BlockManager._calculate_block_level` (lines 202-208):
sets the block's level and recurses over its children one level deeper.
Fuel bounds the recursion (Python recurses unboundedly on a child
cycle). -/
def calcBlockLevel : Nat → String → Int → List (String × Block) → List (String × Block)
  | 0, _, _, bs => bs
  | fuel + 1, block_id, level, bs =>
    match alookup block_id bs with
    | none => bs
    | some block =>
      let bs1 := amodify block_id (fun b => { b with level := level }) bs
      block.child_ids.foldl
        (fun acc child_id => calcBlockLevel fuel child_id (level + 1) acc) bs1

/-- Embedding of `BlockManager._update_block_levels` (lines 188-200):
resets every level to -1, then recomputes levels from the parentless
roots. -/
def updateBlockLevels (m : BlockManager) : BlockManager :=
  let blocks0 := m.blocks.map (fun e => (e.1, { e.2 with level := -1 }))
  let roots := (blocks0.filter (fun e => e.2.parent_id = none)).map Prod.fst
  { m with blocks :=
      roots.foldl (fun bs root_id => calcBlockLevel (bs.length + 1) root_id 0 bs) blocks0 }

/-- Embedding of `BlockManager.set_block_relationship` (lines 167-186):
fails when either id is unknown; detaches the child from a different
previous parent; then records the new parent/child pair (note: no
self-parenting check) and recomputes the levels. -/
def BlockManager.set_block_relationship (m : BlockManager) (parent_id child_id : String) :
    Bool × BlockManager :=
  match alookup parent_id m.blocks, alookup child_id m.blocks with
  | some _, some child =>
    let blocks1 :=
      match child.parent_id with
      | some op =>
        if op ≠ parent_id then
          amodify op (fun ob => { ob with child_ids := ob.child_ids.erase child_id }) m.blocks
        else m.blocks
      | none => m.blocks
    let blocks2 := amodify parent_id
      (fun pb => { pb with child_ids := setAdd child_id pb.child_ids }) blocks1
    let blocks3 := amodify child_id (fun cb => { cb with parent_id := some parent_id }) blocks2
    (true, updateBlockLevels { m with blocks := blocks3 })
  | _, _ => (false, m)

/-- One step of the reachable-state relation for the block partition:
the three mutating operations of C5. -/
inductive BMOp where
  | create (block_type : BlockType) (manual_order : Option Int)
  | assign (component_id block_id : String)
  | delete (block_id : String)

/-- Applies one operation to a manager state, discarding the returned
status/id. -/
def BMOp.apply (m : BlockManager) : BMOp → BlockManager
  | .create bt mo => (m.create_block bt mo).2
  | .assign c b => (m.assign_component c b).2
  | .delete b => (m.delete_block b).2

/-- Every state reachable from a fresh `BlockManager` through a sequence
of `create_block` / `assign_component` / `delete_block` calls. -/
def runOps (ops : List BMOp) : BlockManager :=
  ops.foldl BMOp.apply {}

/-- Ownership invariant: any component found in a block's component set
is mapped to exactly that block's id by the ownership map. -/
def ownerConsistent (m : BlockManager) : Prop :=
  ∀ bid b c, alookup bid m.blocks = some b → c ∈ b.components →
    alookup c m.component_to_block = some bid

end Pilot

namespace Pilot

/-- Embedding of `Joint` (`src/pilot_irrigation/core/blocks/components_blocks.py`
lines 9-24), the variant used by the pilot network/analyzer pair. -/
structure AJoint where
  id : String
  joint_type : JointType
  upstream_components : List String
  downstream_components : List String
  hierarchy_level : Int := -1
deriving Repr, DecidableEq

/-- Embedding of `IrrigationBlock`
(`src/pilot_irrigation/core/blocks/components_blocks.py` lines 26-38):
manual order, component set, internal joints and confluences, tree
references, distribution canal and hierarchy level (the `attributes`
mirror dict is not modelled). -/
structure IrrigationBlock where
  id : String
  block_type : String
  manual_order : Option Int := none
  components : List String := []
  joints : List (String × AJoint) := []
  confluences : List (String × AJoint) := []
  parent_block : Option String := none
  child_blocks : List String := []
  distribution_canal : Option String := none
  hierarchy_level : Int := -1
deriving Repr, DecidableEq

/-- Embedding of `IrrigationBlock.set_manual_order` (lines 40-43). -/
def IrrigationBlock.set_manual_order (b : IrrigationBlock) (order : Int) :
    IrrigationBlock :=
  { b with manual_order := some order }

/-- Embedding of the state of `src/pilot_irrigation/core/network.py`
`IrrigationNetwork` needed by the hierarchy computation: the block dict
and the component-to-block ownership map (the components dict is not read
by these functions). -/
structure HierNetwork where
  blocks : List (String × IrrigationBlock) := []
  component_to_block : List (String × String) := []
deriving Repr, DecidableEq

/-- Embedding of the first pass of `NetworkAnalyzer._calculate_hierarchy`
(`src/pilot_irrigation/core/analyzer.py` lines 170-173): every block
owning a component whose id starts with `F` gets `set_manual_order(1)` —
unconditionally, with no check for an existing manual order. -/
def hierarchyFirstPass (net : HierNetwork) : HierNetwork :=
  let blocks' := net.blocks.map
    (fun e =>
      if e.2.components.any (fun comp_id => pyStartsWith comp_id "F") then
        (e.1, e.2.set_manual_order 1)
      else e)
  { net with blocks := blocks' }

/-- Embedding of `NetworkAnalyzer._process_confluence_hierarchy`
(`src/pilot_irrigation/core/analyzer.py` lines 181-207): for every block
holding confluences, the maximal truthy manual order among upstream
blocks is computed and, when positive, the block's manual order is set
one higher.  The Python iteration over the `confluence_blocks` set is
modelled in dict order. -/
def processConfluenceHierarchy (net : HierNetwork) : HierNetwork :=
  let confluence_blocks := (net.blocks.filter (fun e => e.2.confluences ≠ [])).map Prod.fst
  confluence_blocks.foldl
    (fun acc block_id =>
      match alookup block_id acc.blocks with
      | none => acc
      | some block =>
        let max_input_order : Int := block.confluences.foldl
          (fun mx e =>
            e.2.upstream_components.foldl
              (fun mx2 upstream_id =>
                match alookup upstream_id acc.component_to_block with
                | none => mx2
                | some ub_id =>
                  match alookup ub_id acc.blocks with
                  | none => mx2
                  | some upstream =>
                    match upstream.manual_order with
                    | some o => if o ≠ 0 then max mx2 o else mx2
                    | none => mx2)
              mx)
          0
        if max_input_order > 0 then
          let blocks' := amodify block_id
            (fun b => b.set_manual_order (max_input_order + 1)) acc.blocks
          { acc with blocks := blocks' }
        else acc)
    net

/-- Comparison key of the Python
`sorted(blocks, key=lambda b: b.manual_order if b.manual_order is not None
else float('inf'))`: a missing manual order sorts after every present
one. -/
def manualOrderKeyLe (x y : Option Int) : Prop :=
  match x, y with
  | none, none => True
  | none, some _ => False
  | some _, none => True
  | some u, some v => u ≤ v

instance : ∀ x y, Decidable (manualOrderKeyLe x y)
  | none, none => isTrue trivial
  | none, some _ => isFalse (fun h => h)
  | some _, none => isTrue trivial
  | some u, some v => inferInstanceAs (Decidable (u ≤ v))

/-- Embedding of `IrrigationNetwork._propagate_levels`
(`src/pilot_irrigation/core/network.py` lines 116-128): pushes
`level + 1` through each confluence into the downstream block when that
block has no manual order and the new level is higher, recursing.  Fuel
bounds the recursion (the Python code can recurse unboundedly on cyclic
confluence chains).  A confluence with no downstream component (a Python
`IndexError`; joints are always created with one) contributes
nothing. -/
def propagateLevels : Nat → HierNetwork → String → HierNetwork
  | 0, net, _ => net
  | fuel + 1, net, block_id =>
    match alookup block_id net.blocks with
    | none => net
    | some block =>
      block.confluences.foldl
        (fun acc e =>
          match e.2.downstream_components.head? with
          | none => acc
          | some downstream_component =>
            match alookup downstream_component acc.component_to_block with
            | none => acc
            | some db_id =>
              match alookup db_id acc.blocks with
              | none => acc
              | some downstream_block =>
                if downstream_block.manual_order = none then
                  let cur_level : Int :=
                    match alookup block_id acc.blocks with
                    | some bcur => bcur.hierarchy_level
                    | none => block.hierarchy_level
                  let new_level := cur_level + 1
                  if new_level > downstream_block.hierarchy_level then
                    let blocks' := amodify db_id
                      (fun b => { b with hierarchy_level := new_level }) acc.blocks
                    propagateLevels fuel { acc with blocks := blocks' } db_id
                  else acc
                else acc)
        net

/-- Embedding of `IrrigationNetwork.calculate_hierarchy`
(`src/pilot_irrigation/core/network.py` lines 99-114): resets all levels,
sorts the blocks by manual order (absent orders last, Python's stable
sort modelled by insertion sort on the dict order), then sets each
manually-ordered block's level to its manual order and propagates through
confluences. -/
def calculateHierarchy (net : HierNetwork) : HierNetwork :=
  let blocks0 := net.blocks.map (fun e => (e.1, { e.2 with hierarchy_level := -1 }))
  let orderedIds :=
    ((blocks0.map (fun e => (e.1, e.2.manual_order))).insertionSort
      (fun a b => manualOrderKeyLe a.2 b.2)).map Prod.fst
  orderedIds.foldl
    (fun acc block_id =>
      match alookup block_id acc.blocks with
      | none => acc
      | some block =>
        match block.manual_order with
        | some mo =>
          let blocks' := amodify block_id
            (fun b => { b with hierarchy_level := mo }) acc.blocks
          let acc1 := { acc with blocks := blocks' }
          propagateLevels (acc1.blocks.length + 1) acc1 block_id
        | none => acc)
    { net with blocks := blocks0 }

/-- Embedding of `NetworkAnalyzer._calculate_hierarchy`
(`src/pilot_irrigation/core/analyzer.py` lines 168-179): the field-owning
seeding pass, the confluence pass, then the network-level hierarchy
computation. -/
def calculateHierarchyAnalyzer (net : HierNetwork) : HierNetwork :=
  calculateHierarchy (processConfluenceHierarchy (hierarchyFirstPass net))

end Pilot

/-- Concrete hierarchy state: a single block owning the field `F1` whose
manual order has been set to 5 before the analysis runs. -/
def manualNet : Pilot.HierNetwork :=
  { blocks := [("B1",
      { id := "B1", block_type := "standard", manual_order := some 5,
        components := ["F1"] })],
    component_to_block := [("F1", "B1")] }

/-- Concrete operation sequence: two blocks created, then `MC1` assigned
to the first. -/
def partitionOps : List Pilot.BMOp :=
  [Pilot.BMOp.create Pilot.BlockType.MAIN none,
   Pilot.BMOp.create Pilot.BlockType.MAIN none,
   Pilot.BMOp.assign "MC1" "B1"]

/-- Concrete block manager holding the single block `B1`. -/
def singleBlockManager : Pilot.BlockManager :=
  (Pilot.BlockManager.create_block {} Pilot.BlockType.MAIN none).2

theorem alookup_ainsert {β : Type} (k k' : String) (v : β) (d : List (String × β)) :
    alookup k (ainsert k' v d) = if k' = k then some v else alookup k d := by
  induction d with
  | nil => simp [ainsert, alookup]
  | cons hd t ih =>
    obtain ⟨k₀, v₀⟩ := hd
    by_cases h1 : k₀ = k' <;> by_cases h2 : k₀ = k <;> by_cases h3 : k' = k <;>
      simp_all [ainsert, alookup]

theorem alookup_aerase {β : Type} (k k' : String) (d : List (String × β)) :
    alookup k (aerase k' d) = if k' = k then none else alookup k d := by
  induction d with
  | nil => simp [aerase, alookup]
  | cons hd t ih =>
    obtain ⟨k₀, v₀⟩ := hd
    by_cases h1 : k₀ = k' <;> by_cases h2 : k₀ = k <;> by_cases h3 : k' = k <;>
      simp_all [aerase, alookup]

theorem alookup_amodify {β : Type} (k k' : String) (f : β → β) (d : List (String × β)) :
    alookup k (amodify k' f d) = if k' = k then (alookup k d).map f else alookup k d := by
  induction d with
  | nil => simp [amodify, alookup]
  | cons hd t ih =>
    obtain ⟨k₀, v₀⟩ := hd
    by_cases h1 : k₀ = k' <;> by_cases h2 : k₀ = k <;> by_cases h3 : k' = k <;>
      simp_all [amodify, alookup]

theorem add_connection_to_mem (c : Core.NetworkComponent) (t : String) :
    t ∈ (c.add_connection_to t).connections_to := by
  unfold Core.NetworkComponent.add_connection_to
  split_ifs with h
  · exact h
  · simp

theorem add_connection_from_mem (c : Core.NetworkComponent) (s : String) :
    s ∈ (c.add_connection_from s).connections_from := by
  unfold Core.NetworkComponent.add_connection_from
  split_ifs with h
  · exact h
  · simp

theorem add_connection_from_keeps_to (c : Core.NetworkComponent) (s : String) :
    (c.add_connection_from s).connections_to = c.connections_to := by
  unfold Core.NetworkComponent.add_connection_from
  split_ifs <;> rfl

/-- C2 counterexample: in the legacy component model of
`src/pilot_irrigation/core/components.py`, the id `XY1`, whose alphabetic
prefix `XY` is not in the prefix table, is silently typed as `CANAL`
(that model's enum does not even contain an `unknown` member), refuting
the claim that an unrecognised prefix always derives `unknown`. -/
theorem C2_counterexample :
    Pilot.componentTypeOfId "XY1" = Pilot.ComponentType.CANAL := by decide

/-- C2 (amended): the two coexisting component models disagree on
unrecognised prefixes.  The `src/models/components.py` variant derives
`unknown` exactly when the id matches none of the prefixes `MC`, `DP`,
`SW`, `ZT`, `F` (tested with `startswith`), while the
`src/pilot_irrigation/core/components.py` variant silently defaults any
id whose alphabetic-character prefix is outside the table to `CANAL`. -/
theorem C2_prefix_typing :
    (∀ id label : String,
        Core.NetworkComponent.component_type { id := id, label := label } = "unknown"
          ↔ ¬(pyStartsWith id "MC" = true ∨ pyStartsWith id "DP" = true ∨
              pyStartsWith id "SW" = true ∨ pyStartsWith id "ZT" = true ∨
              pyStartsWith id "F" = true))
    ∧ (∀ id : String,
        Pilot.alphaChars id ∉ (["DP", "MC", "ZT", "SW", "F"] : List String) →
          Pilot.componentTypeOfId id = Pilot.ComponentType.CANAL) := by
  constructor
  · intro id label
    unfold Core.NetworkComponent.component_type
    split_ifs with h1 h2 h3 h4 h5 <;> simp_all
  · intro id h
    unfold Pilot.componentTypeOfId
    simp only [List.mem_cons, List.mem_singleton] at h
    push_neg at h
    obtain ⟨hdp, hmc, hzt, hsw, hf, -⟩ := h
    simp [hdp, hmc, hzt, hsw, hf]

/-- C2 witness: the amended theorem applied at the concrete id `XY1`. -/
theorem C2_witness :
    Pilot.componentTypeOfId "XY1" = Pilot.ComponentType.CANAL
      ∧ Core.NetworkComponent.component_type { id := "XY1", label := "" } = "unknown" :=
  ⟨C2_prefix_typing.2 "XY1" (by decide), (C2_prefix_typing.1 "XY1" "").mpr (by decide)⟩

/-- C6 counterexample: after building `MC1 → ZT1`, calling
`add_component` again with the existing id `MC1` does not fail with a
`DuplicateIdError` — it silently replaces the component, losing its
label and its recorded connection to `ZT1`. -/
theorem C6_counterexample :
    alookup "MC1" dupNet2.components =
        some { id := "MC1", label := "Main canal", connections_to := ["ZT1"] }
      ∧ alookup "MC1" dupNet3.components = some { id := "MC1", label := "Second canal" } := by
  decide

/-- C6 (amended): `add_component` unconditionally creates a fresh
component and stores it under the id, overwriting any existing component
with that id (and discarding its adjacency lists); no duplicate-id
failure exists in either variant of the graph model. -/
theorem C6_add_component_always_overwrites (net : Core.IrrigationNetwork)
    (id label : String) :
    alookup id (net.add_component id label).components
      = some { id := id, label := label } := by
  simp [Core.IrrigationNetwork.add_component, alookup_ainsert]

/-- C10 counterexample: with the single existing component `DP1`,
`add_connection("DP1", "DP1")` records the self-loop on both adjacency
lists instead of rejecting it. -/
theorem C10_counterexample :
    alookup "DP1" (selfNet.add_connection "DP1" "DP1").components =
      some { id := "DP1", label := "dp",
             connections_to := ["DP1"], connections_from := ["DP1"] } := by
  decide

/-- C10 (amended): `add_connection` requires both endpoints to exist but
performs no self-loop check: for any existing component `x`,
`add_connection(x, x)` records `x` in both its outgoing and incoming
adjacency lists. -/
theorem C10_self_loop_recorded (net : Core.IrrigationNetwork) (x : String)
    (h : (alookup x net.components).isSome = true) :
    ∃ c, alookup x (net.add_connection x x).components = some c
      ∧ x ∈ c.connections_to ∧ x ∈ c.connections_from := by
  obtain ⟨c0, hc⟩ := Option.isSome_iff_exists.mp h
  refine ⟨(c0.add_connection_to x).add_connection_from x, ?_, ?_, ?_⟩
  · have hs : (alookup x net.components).isSome = true := h
    simp only [Core.IrrigationNetwork.add_connection, hs, Bool.and_self, if_pos]
    simp [alookup_amodify, hc]
  · rw [add_connection_from_keeps_to]
    exact add_connection_to_mem c0 x
  · exact add_connection_from_mem _ x

/-- C10 witness: the amended theorem applied to the one-component network
`selfNet` at `DP1`. -/
theorem C10_witness :
    ∃ c, alookup "DP1" (selfNet.add_connection "DP1" "DP1").components = some c
      ∧ "DP1" ∈ c.connections_to ∧ "DP1" ∈ c.connections_from :=
  C10_self_loop_recorded selfNet "DP1" (by decide)

theorem foldr_max_le (l : List Nat) (m : Nat) (hub : ∀ x ∈ l, x ≤ m) :
    l.foldr Nat.max 0 ≤ m := by
  induction l with
  | nil => simp
  | cons a t ih =>
    simp only [List.foldr_cons]
    exact Nat.max_le.mpr
      ⟨hub a (List.mem_cons_self a t), ih (fun x hx => hub x (List.mem_cons_of_mem a hx))⟩

theorem le_foldr_max (l : List Nat) (m : Nat) (hmem : m ∈ l) :
    m ≤ l.foldr Nat.max 0 := by
  induction l with
  | nil => simp at hmem
  | cons a t ih =>
    simp only [List.foldr_cons]
    rcases List.mem_cons.mp hmem with h | h
    · rw [h]
      exact Nat.le_max_left a _
    · exact le_trans (ih h) (Nat.le_max_right a _)

theorem foldr_max_eq (l : List Nat) (m : Nat) (hmem : m ∈ l) (hub : ∀ x ∈ l, x ≤ m) :
    l.foldr Nat.max 0 = m :=
  Nat.le_antisymm (foldr_max_le l m hub) (le_foldr_max l m hmem)

theorem desc_head_eq_max (s : List Nat) (m : Nat) (hs : s.Pairwise (· ≥ ·))
    (hmem : m ∈ s) (hub : ∀ x ∈ s, x ≤ m) : s.headD 0 = m := by
  cases s with
  | nil => simp at hmem
  | cons a t =>
    simp only [List.headD_cons]
    rcases List.mem_cons.mp hmem with h | h
    · exact h.symm
    · have h1 : a ≥ m := (List.pairwise_cons.mp hs).1 m h
      have h2 : a ≤ m := hub a (List.mem_cons_self a t)
      omega

theorem desc_second_iff (s : List Nat) (m : Nat) (hs : s.Pairwise (· ≥ ·))
    (hub : ∀ x ∈ s, x ≤ m) (hhead : s.headD 0 = m) :
    s[1]? = some m ↔ 1 < s.count m := by
  cases s with
  | nil => simp
  | cons a t =>
    have ha : a = m := by simpa using hhead
    cases t with
    | nil => simp [List.count_cons, ha]
    | cons b u =>
      have hpc := List.pairwise_cons.mp hs
      have hpc2 := List.pairwise_cons.mp hpc.2
      constructor
      · intro h
        have hb : b = m := by simpa using h
        have hcc : (a :: b :: u).count m = ((u.count m + 1) + 1) := by
          simp [List.count_cons, ha, hb]
        omega
      · intro h
        have hcount : 0 < (b :: u).count m := by
          have hcc : (a :: b :: u).count m = (b :: u).count m + 1 := by
            simp [List.count_cons, ha]
          omega
        have hmem2 : m ∈ b :: u := List.count_pos_iff.mp hcount
        have hb : b = m := by
          rcases List.mem_cons.mp hmem2 with h' | h'
          · exact h'.symm
          · have h1 : b ≥ m := hpc2.1 m h'
            have h2 : b ≤ m := hub b (List.mem_cons_of_mem _ (List.mem_cons_self b u))
            omega
        simp [hb]

/-- C1: for a node with at least one child, both implementations of the
child-combination step (`_compute_strahler_from_children` in
`src/core/strahler.py` and the inline count-based step in
`src/core/network_analyzer.py`) yield the maximum child order `m` when
exactly one child attains `m`, and `m + 1` when two or more children
attain `m`; the single-child case falls under the count-one branch. -/
theorem C1_strahler_from_children (l : List Nat) (m : Nat) (hne : l ≠ [])
    (hmem : m ∈ l) (hub : ∀ x ∈ l, x ≤ m) :
    Core.computeStrahlerFromChildren l = (if 1 < l.count m then m + 1 else m)
      ∧ Core.strahlerFromChildrenByCount l = (if 1 < l.count m then m + 1 else m) := by
  haveI hTot : IsTotal Nat (· ≥ ·) := ⟨fun a b => le_total b a⟩
  haveI hTrans : IsTrans Nat (· ≥ ·) := ⟨fun a b c h1 h2 => le_trans h2 h1⟩
  constructor
  · unfold Core.computeStrahlerFromChildren
    rw [if_neg hne]
    show (if 1 < (l.insertionSort (· ≥ ·)).length ∧
            (l.insertionSort (· ≥ ·))[1]? = some ((l.insertionSort (· ≥ ·)).headD 0)
          then (l.insertionSort (· ≥ ·)).headD 0 + 1
          else (l.insertionSort (· ≥ ·)).headD 0) = if 1 < l.count m then m + 1 else m
    have hperm : (l.insertionSort (· ≥ ·)).Perm l := List.perm_insertionSort (· ≥ ·) l
    have hsorted : (l.insertionSort (· ≥ ·)).Pairwise (· ≥ ·) :=
      List.sorted_insertionSort (· ≥ ·) l
    have hmem' : m ∈ l.insertionSort (· ≥ ·) := hperm.mem_iff.mpr hmem
    have hub' : ∀ x ∈ l.insertionSort (· ≥ ·), x ≤ m :=
      fun x hx => hub x (hperm.mem_iff.mp hx)
    have hhead : (l.insertionSort (· ≥ ·)).headD 0 = m :=
      desc_head_eq_max _ m hsorted hmem' hub'
    have hcount : (l.insertionSort (· ≥ ·)).count m = l.count m := hperm.count_eq m
    have hiff := desc_second_iff _ m hsorted hub' hhead
    rw [hcount] at hiff
    rw [hhead]
    by_cases hc : (l.insertionSort (· ≥ ·))[1]? = some m
    · have hlen : 1 < (l.insertionSort (· ≥ ·)).length := by
        rcases List.getElem?_eq_some_iff.mp hc with ⟨hl, -⟩
        exact hl
      rw [if_pos ⟨hlen, hc⟩, if_pos (hiff.mp hc)]
    · have hnc : ¬(1 < (l.insertionSort (· ≥ ·)).length
          ∧ (l.insertionSort (· ≥ ·))[1]? = some m) := fun hcc => hc hcc.2
      rw [if_neg hnc, if_neg (fun hgt => hc (hiff.mpr hgt))]
  · unfold Core.strahlerFromChildrenByCount
    rw [foldr_max_eq l m hmem hub]

/-- C1 witness: the theorem applied to the child orders `[2, 2, 1]`, whose
maximum 2 occurs twice, giving order 3 under both implementations. -/
theorem C1_witness :
    Core.computeStrahlerFromChildren [2, 2, 1] = 3
      ∧ Core.strahlerFromChildrenByCount [2, 2, 1] = 3 := by
  have h := C1_strahler_from_children [2, 2, 1] 2 (by decide) (by decide) (by decide)
  refine ⟨?_, ?_⟩
  · rw [h.1]; decide
  · rw [h.2]; decide

theorem alookup_mem {β : Type} (k : String) (v : β) (d : List (String × β))
    (h : alookup k d = some v) : (k, v) ∈ d := by
  induction d with
  | nil => simp [alookup] at h
  | cons hd t ih =>
    obtain ⟨k₀, v₀⟩ := hd
    by_cases h1 : k₀ = k
    · subst h1
      simp [alookup] at h
      simp [h]
    · simp [alookup, h1] at h
      exact List.mem_cons_of_mem _ (ih h)

theorem calcChildrenAux_preserves
    (f : String → List (String × Nat) → Nat × List (String × Nat))
    (hf : ∀ c m k v, alookup k m = some v → alookup k (f c m).2 = some v) :
    ∀ (cs : List String) (memo : List (String × Nat)) (k : String) (v : Nat),
      alookup k memo = some v →
      alookup k (Core.calcChildrenAux f cs memo).2 = some v := by
  intro cs
  induction cs with
  | nil => intro memo k v h; simpa [Core.calcChildrenAux] using h
  | cons c cs ih =>
    intro memo k v h
    simp only [Core.calcChildrenAux]
    exact ih _ k v (hf c memo k v h)

theorem calculateStrahler_preserves :
    ∀ (fuel : Nat) (comps : List (String × Core.NetworkComponent)) (node : String)
      (visited : List String) (memo : List (String × Nat)) (k : String) (v : Nat),
      alookup k memo = some v →
      alookup k (Core.calculateStrahler fuel comps node visited memo).2 = some v := by
  intro fuel
  induction fuel with
  | zero => intro comps node visited memo k v h; simpa [Core.calculateStrahler] using h
  | succ fuel ih =>
    intro comps node visited memo k v h
    unfold Core.calculateStrahler
    cases h1 : alookup node memo with
    | some w => simpa using h
    | none =>
      simp only
      by_cases h2 : node ∈ visited
      · simp [h2, h]
      · simp only [if_neg h2]
        cases h3 : alookup node comps with
        | none => simpa using h
        | some comp =>
          simp only
          have hne : node ≠ k := by
            intro he
            rw [he, h] at h1
            cases h1
          by_cases h4 : comp.connections_to = []
          · simp only [if_pos h4]
            simp [alookup_ainsert, hne, h]
          · simp only [if_neg h4]
            simp only [alookup_ainsert, if_neg hne]
            exact calcChildrenAux_preserves _
              (fun c m k' v' h' => ih comps c (node :: visited) m k' v' h')
              comp.connections_to memo k v h

theorem calcChildrenAux_new_keys
    (f : String → List (String × Nat) → Nat × List (String × Nat))
    (Q : String → Prop) (cs : List String)
    (hf : ∀ c ∈ cs, ∀ m k, (alookup k (f c m).2).isSome = true →
        (alookup k m).isSome = true ∨ Q k) :
    ∀ (memo : List (String × Nat)) (k : String),
      (alookup k (Core.calcChildrenAux f cs memo).2).isSome = true →
      (alookup k memo).isSome = true ∨ Q k := by
  induction cs with
  | nil => intro memo k h; simpa [Core.calcChildrenAux] using Or.inl h
  | cons c cs ih =>
    intro memo k h
    simp only [Core.calcChildrenAux] at h
    rcases ih (fun c' hc' => hf c' (List.mem_cons_of_mem c hc')) _ k h with h' | h'
    · exact hf c (List.mem_cons_self c cs) memo k h'
    · exact Or.inr h'

theorem calculateStrahler_new_keys :
    ∀ (fuel : Nat) (comps : List (String × Core.NetworkComponent)) (node : String)
      (visited : List String) (memo : List (String × Nat)) (k : String),
      (alookup k (Core.calculateStrahler fuel comps node visited memo).2).isSome = true →
      (alookup k memo).isSome = true ∨ k = node ∨ isTargetIn comps k := by
  intro fuel
  induction fuel with
  | zero =>
    intro comps node visited memo k h
    simp only [Core.calculateStrahler] at h
    exact Or.inl h
  | succ fuel ih =>
    intro comps node visited memo k h
    unfold Core.calculateStrahler at h
    cases h1 : alookup node memo with
    | some w => rw [h1] at h; exact Or.inl h
    | none =>
      rw [h1] at h
      simp only at h
      by_cases h2 : node ∈ visited
      · rw [if_pos h2] at h
        exact Or.inl h
      · rw [if_neg h2] at h
        cases h3 : alookup node comps with
        | none => rw [h3] at h; exact Or.inl h
        | some comp =>
          rw [h3] at h
          simp only at h
          by_cases h4 : comp.connections_to = []
          · rw [if_pos h4] at h
            simp only [alookup_ainsert] at h
            by_cases h5 : node = k
            · exact Or.inr (Or.inl h5.symm)
            · rw [if_neg h5] at h
              exact Or.inl h
          · rw [if_neg h4] at h
            simp only [alookup_ainsert] at h
            by_cases h5 : node = k
            · exact Or.inr (Or.inl h5.symm)
            · rw [if_neg h5] at h
              have hcomp_mem : (node, comp) ∈ comps := alookup_mem node comp comps h3
              have haux := calcChildrenAux_new_keys
                (fun c m => Core.calculateStrahler fuel comps c (node :: visited) m)
                (fun k' => isTargetIn comps k') comp.connections_to
                (fun c hc m k' h' => by
                  rcases ih comps c (node :: visited) m k' h' with h'' | h'' | h''
                  · exact Or.inl h''
                  · exact Or.inr ⟨(node, comp), hcomp_mem, h'' ▸ hc⟩
                  · exact Or.inr h'')
                memo k h
              rcases haux with h' | h'
              · exact Or.inl h'
              · exact Or.inr (Or.inr h')

theorem calculateStrahler_sink (fuel : Nat)
    (comps : List (String × Core.NetworkComponent)) (node : String)
    (memo : List (String × Nat)) (cn : Core.NetworkComponent)
    (hm : alookup node memo = none) (hc : alookup node comps = some cn)
    (hto : cn.connections_to = []) :
    Core.calculateStrahler (fuel + 1) comps node [] memo = (1, ainsert node 1 memo) := by
  unfold Core.calculateStrahler
  simp [hm, hc, hto]

theorem foldStrahler_preserves (comps : List (String × Core.NetworkComponent)) :
    ∀ (L : List String) (memo : List (String × Nat)) (k : String) (v : Nat),
      alookup k memo = some v →
      alookup k (L.foldl
        (fun m s => (Core.calculateStrahler (comps.length + 1) comps s [] m).2) memo)
        = some v := by
  intro L
  induction L with
  | nil => intro memo k v h; simpa using h
  | cons s L ih =>
    intro memo k v h
    simp only [List.foldl_cons]
    exact ih _ k v (calculateStrahler_preserves _ comps s [] memo k v h)

theorem foldStrahler_new_keys (comps : List (String × Core.NetworkComponent)) :
    ∀ (L : List String) (memo : List (String × Nat)) (k : String),
      (alookup k (L.foldl
        (fun m s => (Core.calculateStrahler (comps.length + 1) comps s [] m).2) memo)).isSome
          = true →
      (alookup k memo).isSome = true ∨ k ∈ L ∨ isTargetIn comps k := by
  intro L
  induction L with
  | nil => intro memo k h; exact Or.inl h
  | cons s L ih =>
    intro memo k h
    simp only [List.foldl_cons] at h
    rcases ih _ k h with h' | h' | h'
    · rcases calculateStrahler_new_keys _ comps s [] memo k h' with h'' | h'' | h''
      · exact Or.inl h''
      · exact Or.inr (Or.inl (h'' ▸ List.mem_cons_self s L))
      · exact Or.inr (Or.inr h'')
    · exact Or.inr (Or.inl (List.mem_cons_of_mem s h'))
    · exact Or.inr (Or.inr h')

theorem foldStrahler_isolated (comps : List (String × Core.NetworkComponent))
    (n : String) (cn : Core.NetworkComponent)
    (hc : alookup n comps = some cn) (hto : cn.connections_to = [])
    (hnt : ∀ e ∈ comps, n ∉ e.2.connections_to) :
    ∀ (L : List String) (memo : List (String × Nat)), n ∈ L → alookup n memo = none →
      alookup n (L.foldl
        (fun m s => (Core.calculateStrahler (comps.length + 1) comps s [] m).2) memo)
        = some 1 := by
  intro L
  induction L with
  | nil => intro memo h; simp at h
  | cons s L ih =>
    intro memo hmem hnone
    simp only [List.foldl_cons]
    by_cases hs : s = n
    · subst hs
      rw [calculateStrahler_sink comps.length comps s memo cn hnone hc hto]
      exact foldStrahler_preserves comps L _ s 1 (by simp [alookup_ainsert])
    · have hmem' : n ∈ L := by
        rcases List.mem_cons.mp hmem with h' | h'
        · exact absurd h'.symm hs
        · exact h'
      have hnone' :
          alookup n (Core.calculateStrahler (comps.length + 1) comps s [] memo).2 = none := by
        cases hcase : alookup n (Core.calculateStrahler (comps.length + 1) comps s [] memo).2 with
        | none => rfl
        | some w =>
          have : (alookup n (Core.calculateStrahler (comps.length + 1) comps s [] memo).2).isSome
              = true := by rw [hcase]; rfl
          rcases calculateStrahler_new_keys _ comps s [] memo n this with h'' | h'' | h''
          · rw [hnone] at h''; cases h''
          · exact absurd h''.symm hs
          · obtain ⟨e, he, hin⟩ := h''
            exact absurd hin (hnt e he)
      exact ih _ hmem' hnone'

/-- C3 counterexample: on the pure 3-node cycle A→B→C→A — a non-empty
graph — `analyze_network` returns an empty mapping, so the cycle nodes
have no assigned order: computation is triggered only for source nodes,
and a pure cycle has none. -/
theorem C3_counterexample :
    cycleNet.components ≠ []
      ∧ Core.analyzeNetwork cycleNet.components = []
      ∧ alookup "A" (Core.analyzeNetwork cycleNet.components) = none := by
  decide

/-- C3 (amended): `analyze_network` triggers the Strahler computation only
for source nodes, so a node receives an order only if it is itself a
source or is pointed at by some recorded edge (in particular, nodes on a
source-free cycle receive none); an isolated node — no outgoing edges, no
incoming edges, and not the target of any recorded edge — is itself a
source and is always assigned order 1. -/
theorem C3_sources_only :
    (∀ (comps : List (String × Core.NetworkComponent)) (k : String),
        (alookup k (Core.analyzeNetwork comps)).isSome = true →
        k ∈ Core.identifySourceNodes comps ∨ isTargetIn comps k)
    ∧ (∀ (comps : List (String × Core.NetworkComponent)) (n : String)
          (cn : Core.NetworkComponent),
        alookup n comps = some cn → cn.connections_to = [] →
        cn.connections_from = [] → (∀ e ∈ comps, n ∉ e.2.connections_to) →
        alookup n (Core.analyzeNetwork comps) = some 1) := by
  constructor
  · intro comps k h
    unfold Core.analyzeNetwork at h
    rcases foldStrahler_new_keys comps (Core.identifySourceNodes comps) [] k h with h' | h' | h'
    · simp [alookup] at h'
    · exact Or.inl h'
    · exact Or.inr h'
  · intro comps n cn hc hto hfrom hnt
    have hsrc : n ∈ Core.identifySourceNodes comps := by
      unfold Core.identifySourceNodes
      have hm : (n, cn) ∈ comps := alookup_mem n cn comps hc
      have hf : (n, cn) ∈ comps.filter (fun e => e.2.connections_from = []) :=
        List.mem_filter.mpr ⟨hm, by simp [hfrom]⟩
      exact List.mem_map.mpr ⟨(n, cn), hf, rfl⟩
    unfold Core.analyzeNetwork
    exact foldStrahler_isolated comps n cn hc hto hnt _ [] hsrc rfl

/-- C3 witness: both halves of the amended theorem at concrete inputs —
the root of `branchNet` holds an order and is indeed a source; the lone
node of `isoNet` is isolated and is assigned order 1. -/
theorem C3_witness :
    ("R" ∈ Core.identifySourceNodes branchNet.components ∨ isTargetIn branchNet.components "R")
      ∧ alookup "X" (Core.analyzeNetwork isoNet.components) = some 1 :=
  ⟨C3_sources_only.1 branchNet.components "R" (by decide),
   C3_sources_only.2 isoNet.components "X" { id := "X", label := "x" } (by decide) (by decide)
     (by decide) (by decide)⟩

theorem foldr_max_eq_zero_iff (l : List Nat) :
    l.foldr Nat.max 0 = 0 ↔ ∀ x ∈ l, x = 0 := by
  induction l with
  | nil => simp
  | cons a t ih =>
    simp only [List.foldr_cons, Nat.max_eq_zero_iff, List.mem_cons]
    constructor
    · rintro ⟨ha, ht⟩ x (hx | hx)
      · exact hx ▸ ha
      · exact ih.mp ht x hx
    · intro h
      exact ⟨h a (Or.inl rfl), ih.mpr (fun x hx => h x (Or.inr hx))⟩

/-- C9 counterexample: the pure 3-node cycle is a non-empty graph, yet
after the Strahler analysis `get_max_level` returns 0 (nothing was
assigned, since the cycle has no source node), refuting `maxOrder() == 0`
iff the component set is empty. -/
theorem C9_counterexample :
    cycleNet.components ≠ []
      ∧ Core.getMaxLevel (Core.analyzeNetwork cycleNet.components) = 0 := by
  decide

/-- C9 (amended): `get_max_level` returns 0 exactly when the analysis
assigned no node a positive order; the empty graph always yields 0, but a
non-empty graph can also yield 0 when no node is reachable from a source
(e.g. a pure cycle, where the assignment map stays empty). -/
theorem C9_max_level_zero :
    (∀ comps : List (String × Core.NetworkComponent),
        Core.getMaxLevel (Core.analyzeNetwork comps) = 0
          ↔ ∀ e ∈ Core.analyzeNetwork comps, e.2 = 0)
    ∧ Core.getMaxLevel (Core.analyzeNetwork []) = 0 := by
  constructor
  · intro comps
    unfold Core.getMaxLevel
    by_cases h : Core.analyzeNetwork comps = []
    · simp [h]
    · rw [if_neg h]
      rw [foldr_max_eq_zero_iff]
      constructor
      · intro hall e he
        exact hall e.2 (List.mem_map.mpr ⟨e, he, rfl⟩)
      · intro hall x hx
        obtain ⟨e, he, hex⟩ := List.mem_map.mp hx
        exact hex ▸ hall e he
  · decide

/-- C9 witness: the amended theorem's equivalence applied to the concrete
cycle network, whose order map is empty, giving max level 0. -/
theorem C9_witness :
    Core.getMaxLevel (Core.analyzeNetwork cycleNet.components) = 0 :=
  (C9_max_level_zero.1 cycleNet.components).mpr (by decide)

/-- C4 counterexample: on the 3-node cycle A→B→C→A the Validator's error
list contains no entry naming the cycle — `_check_for_cycles` starts its
DFS only from source nodes, and a pure cycle has none — refuting the
claim that the blocking error list reports the cycle. -/
theorem C4_counterexample :
    ((Core.validate cycleNet).2.1.all
      (fun e => !(pyStartsWith e "Cycle detected"))) = true := by
  decide

/-- C4 (amended): running the Validator on the 3-node cycle A→B→C→A
completes and returns a failing report: the blocking errors flag the
missing source and sink nodes and the three invalid hierarchy edges, but
no error names the cycle (cycle detection is seeded only from source
nodes, which a pure cycle lacks); no exception interrupts the run. -/
theorem C4_cycle_validation :
    Core.validate cycleNet =
      (false,
       ["Network has no source nodes", "Network has no sink nodes",
        "Invalid hierarchy: A (level -1) connects to B (level -1)",
        "Invalid hierarchy: B (level -1) connects to C (level -1)",
        "Invalid hierarchy: C (level -1) connects to A (level -1)"],
       []) := by
  decide

theorem mem_setAdd (x y : String) (s : List String) :
    y ∈ setAdd x s ↔ y ∈ s ∨ y = x := by
  unfold setAdd
  split_ifs with h
  · constructor
    · exact Or.inl
    · rintro (hy | hy)
      · exact hy
      · exact hy ▸ h
  · simp

theorem add_component_components (b : Pilot.Block) (cid : String) :
    (b.add_component cid).components = setAdd cid b.components := by
  unfold Pilot.Block.add_component Pilot.Block.set_distribution_canal
  dsimp only
  split_ifs <;> rfl

theorem remove_component_subset (b : Pilot.Block) (cid c : String)
    (h : c ∈ (b.remove_component cid).components) : c ∈ b.components := by
  unfold Pilot.Block.remove_component at h
  split_ifs at h
  · simp only at h
    split_ifs at h <;> exact (List.mem_filter.mp h).1
  · exact h

theorem not_mem_remove_component_self (b : Pilot.Block) (cid : String) :
    cid ∉ (b.remove_component cid).components := by
  unfold Pilot.Block.remove_component
  split_ifs with h1
  · intro hmem
    simp only at hmem
    split_ifs at hmem
    all_goals
      have h2 := (List.mem_filter.mp hmem).2
      simp at h2
  · exact h1

theorem create_block_state (m : Pilot.BlockManager) (bt : Pilot.BlockType)
    (mo : Option Int) :
    (m.create_block bt mo).2.blocks =
        ainsert ("B" ++ toString m.next_block_id)
          { id := "B" ++ toString m.next_block_id, block_type := bt, manual_order := mo }
          m.blocks
      ∧ (m.create_block bt mo).2.component_to_block = m.component_to_block := by
  cases mo <;> exact ⟨rfl, rfl⟩

theorem inv_create (m : Pilot.BlockManager) (bt : Pilot.BlockType) (mo : Option Int)
    (h : Pilot.ownerConsistent m) : Pilot.ownerConsistent (m.create_block bt mo).2 := by
  intro bid b c hlb hcb
  rw [(create_block_state m bt mo).1, alookup_ainsert] at hlb
  rw [(create_block_state m bt mo).2]
  split_ifs at hlb with hk
  · cases hlb
    simp at hcb
  · exact h bid b c hlb hcb

theorem lookup_amodify_cases {β : Type} {bid x : String} {f : β → β}
    {bs : List (String × β)} {b : β} (h : alookup bid (amodify x f bs) = some b) :
    (x = bid ∧ ∃ b0, alookup bid bs = some b0 ∧ b = f b0)
      ∨ (x ≠ bid ∧ alookup bid bs = some b) := by
  rw [alookup_amodify] at h
  by_cases hx : x = bid
  · rw [if_pos hx] at h
    cases hmb : alookup bid bs with
    | none => rw [hmb] at h; cases h
    | some b0 =>
      rw [hmb] at h
      exact Or.inl ⟨hx, b0, rfl, (Option.some.inj h).symm⟩
  · rw [if_neg hx] at h
    exact Or.inr ⟨hx, h⟩

theorem inv_assign (m : Pilot.BlockManager) (cid bid0 : String)
    (h : Pilot.ownerConsistent m) : Pilot.ownerConsistent (m.assign_component cid bid0).2 := by
  unfold Pilot.BlockManager.assign_component
  by_cases hb : (alookup bid0 m.blocks).isSome = true
  · rw [if_pos hb]
    intro bid b c hlb hcb
    dsimp only at hlb ⊢
    rw [alookup_ainsert]
    cases hold : alookup cid m.component_to_block with
    | some ob =>
      rw [hold] at hlb
      rcases lookup_amodify_cases hlb with ⟨hb0, b1, hlb1, hbeq⟩ | ⟨hb0, hlb1⟩
      · rcases lookup_amodify_cases hlb1 with ⟨hob, b0, hlb0, hb1eq⟩ | ⟨hob, hlb0⟩
        · by_cases hcc : cid = c
          · rw [if_pos hcc, hb0]
          · rw [if_neg hcc]
            have hc1 : c ∈ b1.components := by
              rw [hbeq, add_component_components] at hcb
              rcases (mem_setAdd cid c b1.components).mp hcb with h' | h'
              · exact h'
              · exact absurd h'.symm hcc
            have hc0 : c ∈ b0.components :=
              remove_component_subset b0 cid c (by rw [← hb1eq]; exact hc1)
            exact h bid b0 c hlb0 hc0
        · by_cases hcc : cid = c
          · rw [if_pos hcc, hb0]
          · rw [if_neg hcc]
            have hc1 : c ∈ b1.components := by
              rw [hbeq, add_component_components] at hcb
              rcases (mem_setAdd cid c b1.components).mp hcb with h' | h'
              · exact h'
              · exact absurd h'.symm hcc
            exact h bid b1 c hlb0 hc1
      · rcases lookup_amodify_cases hlb1 with ⟨hob, b0, hlb0, hbeq⟩ | ⟨hob, hlb0⟩
        · by_cases hcc : cid = c
          · exfalso
            rw [hbeq] at hcb
            rw [← hcc] at hcb
            exact not_mem_remove_component_self b0 cid hcb
          · rw [if_neg hcc]
            have hc0 : c ∈ b0.components :=
              remove_component_subset b0 cid c (by rw [← hbeq]; exact hcb)
            exact h bid b0 c hlb0 hc0
        · by_cases hcc : cid = c
          · exfalso
            have h2 := h bid b c hlb0 hcb
            rw [← hcc, hold] at h2
            exact hob (Option.some.inj h2)
          · rw [if_neg hcc]
            exact h bid b c hlb0 hcb
    | none =>
      rw [hold] at hlb
      rcases lookup_amodify_cases hlb with ⟨hb0, b1, hlb1, hbeq⟩ | ⟨hb0, hlb1⟩
      · by_cases hcc : cid = c
        · rw [if_pos hcc, hb0]
        · rw [if_neg hcc]
          have hc1 : c ∈ b1.components := by
            rw [hbeq, add_component_components] at hcb
            rcases (mem_setAdd cid c b1.components).mp hcb with h' | h'
            · exact h'
            · exact absurd h'.symm hcc
          exact h bid b1 c hlb1 hc1
      · by_cases hcc : cid = c
        · exfalso
          have h2 := h bid b c hlb1 hcb
          rw [← hcc, hold] at h2
          cases h2
        · rw [if_neg hcc]
          exact h bid b c hlb1 hcb
  · rw [if_neg hb]
    exact h

theorem alookup_foldl_aerase {β : Type} (L : List String) :
    ∀ (d : List (String × β)) (k : String),
      alookup k (L.foldl (fun acc x => aerase x acc) d)
        = if k ∈ L then none else alookup k d := by
  induction L with
  | nil => intro d k; simp
  | cons x L ih =>
    intro d k
    simp only [List.foldl_cons]
    rw [ih]
    by_cases h1 : k ∈ L <;> by_cases h2 : x = k <;>
      (simp_all [alookup_aerase]; try rw [if_neg (fun he => h2 he.symm)])

theorem foldl_guard_amodify_components (L : List String)
    (f : Pilot.Block → Pilot.Block) (hf : ∀ x, (f x).components = x.components) :
    ∀ (bs : List (String × Pilot.Block)) (bid : String) (b : Pilot.Block),
      alookup bid
        (L.foldl (fun acc x => if (alookup x acc).isSome then amodify x f acc else acc) bs)
        = some b →
      ∃ b0, alookup bid bs = some b0 ∧ b.components = b0.components := by
  induction L with
  | nil => intro bs bid b h; exact ⟨b, h, rfl⟩
  | cons x L ih =>
    intro bs bid b h
    simp only [List.foldl_cons] at h
    obtain ⟨b1, h1, hcomp⟩ := ih _ bid b h
    by_cases hg : (alookup x bs).isSome = true
    · rw [if_pos hg] at h1
      rcases lookup_amodify_cases h1 with ⟨hx, b0, h0, heq⟩ | ⟨hx, h0⟩
      · exact ⟨b0, h0, by rw [hcomp, heq, hf]⟩
      · exact ⟨b1, h0, hcomp⟩
    · rw [if_neg hg] at h1
      exact ⟨b1, h1, hcomp⟩

theorem inv_delete (m : Pilot.BlockManager) (bid0 : String)
    (h : Pilot.ownerConsistent m) : Pilot.ownerConsistent (m.delete_block bid0).2 := by
  unfold Pilot.BlockManager.delete_block
  cases hlk : alookup bid0 m.blocks with
  | none => simp only [hlk]; exact h
  | some block =>
    simp only [hlk]
    intro bid b c hlb hcb
    dsimp only at hlb ⊢
    rw [alookup_aerase] at hlb
    by_cases hbid : bid0 = bid
    · rw [if_pos hbid] at hlb; cases hlb
    · rw [if_neg hbid] at hlb
      obtain ⟨b1, h1, hcomp1⟩ := foldl_guard_amodify_components block.child_ids
        (fun cb => { cb with parent_id := none }) (fun x => rfl) _ bid b hlb
      have hback : ∃ b0, alookup bid m.blocks = some b0 ∧ b1.components = b0.components := by
        cases hp : block.parent_id with
        | none =>
          rw [hp] at h1
          exact ⟨b1, h1, rfl⟩
        | some p =>
          rw [hp] at h1
          simp only at h1
          by_cases hg : (alookup p m.blocks).isSome = true
          · rw [if_pos hg] at h1
            rcases lookup_amodify_cases h1 with ⟨hx, b0, h0, heq⟩ | ⟨hx, h0⟩
            · exact ⟨b0, h0, by rw [heq]⟩
            · exact ⟨b1, h0, rfl⟩
          · rw [if_neg hg] at h1
            exact ⟨b1, h1, rfl⟩
      obtain ⟨b0, h0, hcomp0⟩ := hback
      have hc0 : c ∈ b0.components := by rw [← hcomp0, ← hcomp1]; exact hcb
      have hcbid := h bid b0 c h0 hc0
      rw [alookup_foldl_aerase]
      have hnotin : c ∉ block.components := by
        intro hcin
        have h2 := h bid0 block c hlk hcin
        rw [hcbid] at h2
        exact hbid (Option.some.inj h2).symm
      rw [if_neg hnotin]
      exact hcbid

theorem ownerConsistent_runOps (ops : List Pilot.BMOp) :
    Pilot.ownerConsistent (Pilot.runOps ops) := by
  have hgen : ∀ (l : List Pilot.BMOp) (m : Pilot.BlockManager),
      Pilot.ownerConsistent m → Pilot.ownerConsistent (l.foldl Pilot.BMOp.apply m) := by
    intro l
    induction l with
    | nil => intro m hm; exact hm
    | cons op l ih =>
      intro m hm
      simp only [List.foldl_cons]
      apply ih
      cases op with
      | create bt mo => exact inv_create m bt mo hm
      | assign c b => exact inv_assign m c b hm
      | delete b => exact inv_delete m b hm
  exact hgen ops {} (fun bid b c hlb => by simp [alookup] at hlb)

/-- C5: in every manager state reachable through `create_block`,
`assign_component` and `delete_block`, the component sets of two blocks
registered under distinct ids are disjoint: `assign_component` removes
the component from its previous owning block before adding it, so the
ownership map names at most one owner per component. -/
theorem C5_block_partition (ops : List Pilot.BMOp) (bid1 bid2 : String)
    (b1 b2 : Pilot.Block) (c : String) (hne : bid1 ≠ bid2)
    (h1 : alookup bid1 (Pilot.runOps ops).blocks = some b1)
    (h2 : alookup bid2 (Pilot.runOps ops).blocks = some b2)
    (hc : c ∈ b1.components) : c ∉ b2.components := by
  intro hc2
  have hI := ownerConsistent_runOps ops
  have e1 := hI bid1 b1 c h1 hc
  have e2 := hI bid2 b2 c h2 hc2
  rw [e1] at e2
  exact hne (Option.some.inj e2)

/-- C5 witness: after creating blocks `B1` and `B2` and assigning `MC1`
to `B1`, the theorem instantiated at the resulting concrete state shows
`MC1` is not in `B2`'s component set. -/
theorem C5_witness :
    "MC1" ∉ ({ id := "B2", block_type := Pilot.BlockType.MAIN } : Pilot.Block).components :=
  C5_block_partition partitionOps "B1" "B2"
    { id := "B1", block_type := Pilot.BlockType.MAIN, components := ["MC1"],
      distribution_canal := some "MC1" }
    { id := "B2", block_type := Pilot.BlockType.MAIN }
    "MC1" (by decide) (by decide) (by decide) (by decide)

theorem alookup_map_snd {β : Type} (f : β → β) (bs : List (String × β)) (k : String) :
    alookup k (bs.map (fun e => (e.1, f e.2))) = (alookup k bs).map f := by
  induction bs with
  | nil => simp [alookup]
  | cons e t ih =>
    by_cases h : e.1 = k <;> simp [alookup, h, ih]

theorem foldl_lookup_fields (L : List String)
    (step : List (String × Pilot.Block) → String → List (String × Pilot.Block))
    (hstep : ∀ bs x bid b0, alookup bid bs = some b0 →
      ∃ b', alookup bid (step bs x) = some b'
        ∧ b'.parent_id = b0.parent_id ∧ b'.child_ids = b0.child_ids) :
    ∀ (bs : List (String × Pilot.Block)) (bid : String) (b0 : Pilot.Block),
      alookup bid bs = some b0 →
      ∃ b', alookup bid (L.foldl step bs) = some b'
        ∧ b'.parent_id = b0.parent_id ∧ b'.child_ids = b0.child_ids := by
  induction L with
  | nil => intro bs bid b0 h; exact ⟨b0, h, rfl, rfl⟩
  | cons x L ih =>
    intro bs bid b0 h
    simp only [List.foldl_cons]
    obtain ⟨b1, h1, hp1, hc1⟩ := hstep bs x bid b0 h
    obtain ⟨b2, h2, hp2, hc2⟩ := ih _ bid b1 h1
    exact ⟨b2, h2, hp2.trans hp1, hc2.trans hc1⟩

theorem calcBlockLevel_fields :
    ∀ (fuel : Nat) (x : String) (lvl : Int) (bs : List (String × Pilot.Block))
      (bid : String) (b0 : Pilot.Block),
      alookup bid bs = some b0 →
      ∃ b', alookup bid (Pilot.calcBlockLevel fuel x lvl bs) = some b'
        ∧ b'.parent_id = b0.parent_id ∧ b'.child_ids = b0.child_ids := by
  intro fuel
  induction fuel with
  | zero => intro x lvl bs bid b0 h; exact ⟨b0, h, rfl, rfl⟩
  | succ fuel ih =>
    intro x lvl bs bid b0 h
    unfold Pilot.calcBlockLevel
    cases hx : alookup x bs with
    | none => exact ⟨b0, h, rfl, rfl⟩
    | some block =>
      simp only
      have h1 : ∃ b1, alookup bid (amodify x (fun b => { b with level := lvl }) bs) = some b1
          ∧ b1.parent_id = b0.parent_id ∧ b1.child_ids = b0.child_ids := by
        rw [alookup_amodify]
        by_cases hxb : x = bid
        · rw [if_pos hxb, h]
          exact ⟨{ b0 with level := lvl }, rfl, rfl, rfl⟩
        · rw [if_neg hxb]
          exact ⟨b0, h, rfl, rfl⟩
      obtain ⟨b1, h1, hp1, hc1⟩ := h1
      obtain ⟨b2, h2, hp2, hc2⟩ := foldl_lookup_fields block.child_ids
        (fun acc child_id => Pilot.calcBlockLevel fuel child_id (lvl + 1) acc)
        (fun bs' x' bid' b0' h' => ih x' (lvl + 1) bs' bid' b0' h')
        _ bid b1 h1
      exact ⟨b2, h2, hp2.trans hp1, hc2.trans hc1⟩

theorem updateBlockLevels_fields (m : Pilot.BlockManager) (bid : String)
    (b0 : Pilot.Block) (h : alookup bid m.blocks = some b0) :
    ∃ b', alookup bid (Pilot.updateBlockLevels m).blocks = some b'
      ∧ b'.parent_id = b0.parent_id ∧ b'.child_ids = b0.child_ids := by
  unfold Pilot.updateBlockLevels
  dsimp only
  have h0 : alookup bid (m.blocks.map (fun e => (e.1, { e.2 with level := -1 })))
      = some { b0 with level := -1 } := by
    have h0' := alookup_map_snd (fun b => { b with level := -1 }) m.blocks bid
    rw [h] at h0'
    exact h0'
  obtain ⟨b', h', hp, hc⟩ := foldl_lookup_fields _
    (fun bs root_id => Pilot.calcBlockLevel (bs.length + 1) root_id 0 bs)
    (fun bs' x' bid' b0' h' => calcBlockLevel_fields (bs'.length + 1) x' 0 bs' bid' b0' h')
    _ bid { b0 with level := -1 } h0
  exact ⟨b', h', hp, hc⟩

/-- C7 counterexample: with the single existing block `B1`,
`set_block_relationship("B1", "B1")` returns `True` and records `B1` as
its own parent and its own child, refuting the claim that self-parenting
is rejected and the block left unchanged. -/
theorem C7_counterexample :
    (singleBlockManager.set_block_relationship "B1" "B1").1 = true
      ∧ (alookup "B1" (singleBlockManager.set_block_relationship "B1" "B1").2.blocks).map
          (fun b => (b.parent_id, b.child_ids)) = some (some "B1", ["B1"]) := by
  decide

/-- C7 (amended): `set_block_relationship` contains no self-parenting
check: for every existing block `b`, `set_block_relationship(b, b)`
returns `True` and afterwards `b` is recorded as its own parent and a
member of its own child set (so the block relation is not kept a
tree). -/
theorem C7_self_parent_allowed (m : Pilot.BlockManager) (bid : String)
    (h : (alookup bid m.blocks).isSome = true) :
    (m.set_block_relationship bid bid).1 = true
      ∧ ∃ b', alookup bid (m.set_block_relationship bid bid).2.blocks = some b'
          ∧ b'.parent_id = some bid ∧ bid ∈ b'.child_ids := by
  obtain ⟨child, hchild⟩ := Option.isSome_iff_exists.mp h
  unfold Pilot.BlockManager.set_block_relationship
  rw [hchild]
  dsimp only
  constructor
  · rfl
  · have hb1 : alookup bid
        (match child.parent_id with
         | some op =>
           if op ≠ bid then
             amodify op (fun ob => { ob with child_ids := ob.child_ids.erase bid }) m.blocks
           else m.blocks
         | none => m.blocks) = some child := by
      cases hp : child.parent_id with
      | none => exact hchild
      | some op =>
        dsimp only
        by_cases hop : op ≠ bid
        · rw [if_pos hop, alookup_amodify, if_neg (by exact hop)]
          exact hchild
        · rw [if_neg hop]
          exact hchild
    have hb2 := hb1
    have hb3 : alookup bid
        (amodify bid (fun cb => { cb with parent_id := some bid })
          (amodify bid (fun pb => { pb with child_ids := setAdd bid pb.child_ids })
            (match child.parent_id with
             | some op =>
               if op ≠ bid then
                 amodify op (fun ob => { ob with child_ids := ob.child_ids.erase bid }) m.blocks
               else m.blocks
             | none => m.blocks)))
        = some { child with child_ids := setAdd bid child.child_ids, parent_id := some bid } := by
      rw [alookup_amodify, if_pos rfl, alookup_amodify, if_pos rfl, hb1]
      rfl
    obtain ⟨b', h', hp', hc'⟩ := updateBlockLevels_fields
      ⟨amodify bid (fun cb => { cb with parent_id := some bid })
          (amodify bid (fun pb => { pb with child_ids := setAdd bid pb.child_ids })
            (match child.parent_id with
             | some op =>
               if op ≠ bid then
                 amodify op (fun ob => { ob with child_ids := ob.child_ids.erase bid }) m.blocks
               else m.blocks
             | none => m.blocks)),
        m.component_to_block, m.next_block_id, m.next_joint_id⟩
      bid
      { child with child_ids := setAdd bid child.child_ids, parent_id := some bid }
      hb3
    refine ⟨b', h', ?_, ?_⟩
    · exact hp'
    · rw [hc']
      exact (mem_setAdd bid bid child.child_ids).mpr (Or.inr rfl)

/-- C7 witness: the amended theorem applied to the concrete one-block
manager at its block `B1`. -/
theorem C7_witness :
    (singleBlockManager.set_block_relationship "B1" "B1").1 = true
      ∧ ∃ b', alookup "B1" (singleBlockManager.set_block_relationship "B1" "B1").2.blocks
            = some b'
          ∧ b'.parent_id = some "B1" ∧ "B1" ∈ b'.child_ids :=
  C7_self_parent_allowed singleBlockManager "B1" (by decide)

theorem firstPass_list (bs : List (String × Pilot.IrrigationBlock)) :
    ∀ (bid : String) (b : Pilot.IrrigationBlock), alookup bid bs = some b →
    ∃ b', alookup bid (bs.map (fun e =>
        if e.2.components.any (fun comp_id => pyStartsWith comp_id "F") then
          (e.1, e.2.set_manual_order 1)
        else e)) = some b'
      ∧ (b.components.any (fun comp_id => pyStartsWith comp_id "F") = true →
          b'.manual_order = some 1)
      ∧ (b.components.any (fun comp_id => pyStartsWith comp_id "F") = false → b' = b) := by
  induction bs with
  | nil => intro bid b h; simp [alookup] at h
  | cons e t ih =>
    obtain ⟨k0, v0⟩ := e
    intro bid b h
    unfold alookup at h
    simp only [List.map_cons]
    by_cases hk : k0 = bid
    · rw [if_pos hk] at h
      have hb : v0 = b := Option.some.inj h
      by_cases hcond : v0.components.any (fun comp_id => pyStartsWith comp_id "F") = true
      · refine ⟨v0.set_manual_order 1, ?_, ?_, ?_⟩
        · rw [if_pos hcond]
          unfold alookup
          rw [if_pos hk]
        · intro
          rfl
        · intro hfalse
          rw [← hb, hcond] at hfalse
          cases hfalse
      · refine ⟨v0, ?_, ?_, ?_⟩
        · rw [if_neg hcond]
          unfold alookup
          rw [if_pos hk]
        · intro htrue
          rw [← hb] at htrue
          exact absurd htrue hcond
        · intro
          exact hb
    · rw [if_neg hk] at h
      obtain ⟨b', h', h1, h2⟩ := ih bid b h
      by_cases hcond : v0.components.any (fun comp_id => pyStartsWith comp_id "F") = true
      · refine ⟨b', ?_, h1, h2⟩
        rw [if_pos hcond]
        unfold alookup
        rw [if_neg hk]
        exact h'
      · refine ⟨b', ?_, h1, h2⟩
        rw [if_neg hcond]
        unfold alookup
        rw [if_neg hk]
        exact h'

/-- C8 counterexample: block `B1` owns the field `F1` and has a manual
order of 5, yet running the full hierarchy computation
(`_calculate_hierarchy`) resets its manual order to 1 — the field-owning
seed is applied unconditionally and overwrites the manual override. -/
theorem C8_counterexample :
    (alookup "B1" manualNet.blocks).map (fun b => b.manual_order) = some (some 5)
      ∧ (alookup "B1" (Pilot.calculateHierarchyAnalyzer manualNet).blocks).map
          (fun b => b.manual_order) = some (some 1) := by
  decide

/-- C8 (amended): the seeding pass of `_calculate_hierarchy` sets
`manual_order` to 1 for every block that owns at least one `F`-prefixed
component, unconditionally overwriting any existing manual order; blocks
owning no field are left untouched.  The manual override therefore does
not take precedence over the seed. -/
theorem C8_first_pass_seeding (net : Pilot.HierNetwork) (bid : String)
    (b : Pilot.IrrigationBlock) (h : alookup bid net.blocks = some b) :
    ∃ b', alookup bid (Pilot.hierarchyFirstPass net).blocks = some b'
      ∧ (b.components.any (fun comp_id => pyStartsWith comp_id "F") = true →
          b'.manual_order = some 1)
      ∧ (b.components.any (fun comp_id => pyStartsWith comp_id "F") = false → b' = b) := by
  unfold Pilot.hierarchyFirstPass
  dsimp only
  exact firstPass_list net.blocks bid b h

/-- C8 witness: the amended theorem applied to the concrete state whose
block `B1` owns `F1` and carries manual order 5. -/
theorem C8_witness :
    ∃ b', alookup "B1" (Pilot.hierarchyFirstPass manualNet).blocks = some b'
      ∧ ((["F1"] : List String).any (fun comp_id => pyStartsWith comp_id "F") = true →
          b'.manual_order = some 1)
      ∧ ((["F1"] : List String).any (fun comp_id => pyStartsWith comp_id "F") = false →
          b' = { id := "B1", block_type := "standard", manual_order := some 5,
                 components := ["F1"] }) :=
  C8_first_pass_seeding manualNet "B1"
    { id := "B1", block_type := "standard", manual_order := some 5, components := ["F1"] }
    (by decide)
